import Mathlib

/-!
Verification of the geometry pipeline of bRigNet (rignetconnect.py).

Shallow embedding conventions:
* machine floats are modelled by the rationals; decimal literals of the
  source (0.35, 1.3, 1e-10, 1e-3, 8.0) become the exact rationals
  35/100, 13/10, 1/10000000000, 1/1000, 8;
* numpy arrays become lists or index functions; surface geodesic entries
  that can be infinite are Option rationals, none standing for +inf;
* external library calls (RigNet utilities, numpy percentile and norm,
  trimesh ray casts, the learned networks) are passed in as function
  parameters, so every theorem quantifies over their behaviour, except
  inside_check which is modelled from the specification text;
* Python exceptions become an explicit error type: a function that the
  source lets raise is embedded with an Except codomain, and a source
  function with no raise site is embedded as one that always returns ok.
-/

/-- A 3d point with rational coordinates. -/
abbrev Vec3 := ℚ × ℚ × ℚ

/-- A bone: starting and ending joint position (a row of the B x 6 array). -/
abbrev Bone := Vec3 × Vec3

/-- Error vocabulary: the kinds named by the specification together with the
Python exceptions the source code can actually raise. -/
inductive RigError
  | DegenerateMeshError
  | ToolingUnavailableError
  | InsufficientJointsError
  | InvariantViolation
  | FileNotFoundError (msg : String)
  | ValueError
  | NameError
deriving DecidableEq, Repr

deriving instance DecidableEq for Except

/-- Python builtin max over a list, total version (0 on the empty list,
which the pipeline never reaches when this is used). -/
def listMax : List ℚ → ℚ
  | [] => 0
  | x :: xs => xs.foldl max x

/-- Python builtin min over a list, total version. -/
def listMin : List ℚ → ℚ
  | [] => 0
  | x :: xs => xs.foldl min x

/-- Python builtin min and max of a sequence: both raise ValueError on an
empty sequence, modelled as an error result. -/
def minmaxQ : List ℚ → Except RigError (ℚ × ℚ)
  | [] => .error .ValueError
  | x :: xs => .ok (xs.foldl min x, xs.foldl max x)

/-- Insert into a sorted list, auxiliary for sorting. -/
def insertSorted (x : ℚ) : List ℚ → List ℚ
  | [] => [x]
  | y :: ys => if x ≤ y then x :: y :: ys else y :: insertSorted x ys

/-- Insertion sort on rationals. -/
def sortQ (l : List ℚ) : List ℚ := l.foldr insertSorted []

/-- np.percentile(xs, 15) with the default linear interpolation method of
numpy: the value at fractional position 0.15 * (n - 1) of the sorted data. -/
def percentile15 (xs : List ℚ) : ℚ :=
  let s := sortQ xs
  let n := s.length
  if n = 0 then 0
  else
    let num : Nat := 15 * (n - 1)
    let k : Nat := num / 100
    let frac : ℚ := ((num % 100 : Nat) : ℚ) / 100
    s.getD k 0 + frac * (s.getD (k + 1) (s.getD k 0) - s.getD k 0)

/-- Minimum of two extended rationals, none standing for +inf
(the behaviour of np.min on floats that may be inf). -/
def oMin : Option ℚ → Option ℚ → Option ℚ
  | none, y => y
  | some a, none => some a
  | some a, some b => some (min a b)

/-- np.min over a vector of possibly infinite floats (none on an empty or
all-infinite vector means +inf). -/
def listOMin (l : List (Option ℚ)) : Option ℚ := l.foldl oMin none

/-!  Mesh normalizer: normalize_obj (rignetconnect.py lines 44-55).  -/

/-- Embedding of normalize_obj.  The source computes per-axis extents with
the Python builtins min and max (ValueError on an empty vertex array),
takes scale = 1.0 / max(dims) -- with NO degeneracy check: on a numpy
float a zero maximum extent produces an infinite scale with only a runtime
warning, never an exception; in this rational model the junk value of
division by zero is 0 -- then translates by the pivot and scales.  There is
no raise site in the source, so apart from the builtin max on an empty
sequence the function always returns ok. -/
def normalize_obj (mesh_v : List Vec3) : Except RigError (List Vec3 × Vec3 × ℚ) :=
  match minmaxQ (mesh_v.map (·.1)), minmaxQ (mesh_v.map (·.2.1)),
        minmaxQ (mesh_v.map (·.2.2)) with
  | .ok mx, .ok my, .ok mz =>
    let scale := 1 / max (max (mx.2 - mx.1) (my.2 - my.1)) (mz.2 - mz.1)
    let pivot : Vec3 := ((mx.1 + mx.2) / 2, my.1, (mz.1 + mz.2) / 2)
    let shifted := mesh_v.map
      (fun p => (p.1 - pivot.1, p.2.1 - pivot.2.1, p.2.2 - pivot.2.2))
    .ok (shifted.map (fun p => (p.1 * scale, p.2.1 * scale, p.2.2 * scale)),
         pivot, scale)
  | _, _, _ => .error .ValueError

/-- The maximum axis-aligned extent of a vertex list, the quantity the
source divides by. -/
def maxExtent (mesh_v : List Vec3) : ℚ :=
  max (max (listMax (mesh_v.map (·.1)) - listMin (mesh_v.map (·.1)))
           (listMax (mesh_v.map (·.2.1)) - listMin (mesh_v.map (·.2.1))))
      (listMax (mesh_v.map (·.2.2)) - listMin (mesh_v.map (·.2.2)))

/-- A heap of numpy arrays addressed by natural number references, used to
express the in-place mutation performed by normalize_obj. -/
abbrev Store := List (List Vec3)

/-- Dereference an array. -/
def readRef (σ : Store) (r : Nat) : List Vec3 := σ.getD r []

/-- Overwrite an array in place. -/
def writeRef (σ : Store) (r : Nat) (v : List Vec3) : Store := σ.set r v

/-- State-passing embedding of normalize_obj: the augmented assignments of
the source (mesh_v[:, 0] -= pivot[0], then the other two axes, then
mesh_v *= scale) mutate the array the caller passed in, one statement per
heap write, and the function returns that same array reference. -/
def normalize_obj_st (σ : Store) (r : Nat) :
    Except RigError (Store × Nat × Vec3 × ℚ) :=
  let mesh_v := readRef σ r
  match minmaxQ (mesh_v.map (·.1)), minmaxQ (mesh_v.map (·.2.1)),
        minmaxQ (mesh_v.map (·.2.2)) with
  | .ok mx, .ok my, .ok mz =>
    let scale := 1 / max (max (mx.2 - mx.1) (my.2 - my.1)) (mz.2 - mz.1)
    let pivot : Vec3 := ((mx.1 + mx.2) / 2, my.1, (mz.1 + mz.2) / 2)
    let σ1 := writeRef σ r
      ((readRef σ r).map (fun p => (p.1 - pivot.1, p.2.1, p.2.2)))
    let σ2 := writeRef σ1 r
      ((readRef σ1 r).map (fun p => (p.1, p.2.1 - pivot.2.1, p.2.2)))
    let σ3 := writeRef σ2 r
      ((readRef σ2 r).map (fun p => (p.1, p.2.1, p.2.2 - pivot.2.2)))
    let σ4 := writeRef σ3 r
      ((readRef σ3 r).map (fun p => (p.1 * scale, p.2.1 * scale, p.2.2 * scale)))
    .ok (σ4, r, pivot, scale)
  | _, _, _ => .error .ValueError

/-!  Voxelization step of create_single_data (rignetconnect.py 127-151).  -/

/-- Which of the two temporary files exist on disk: the exported
normalized .obj and the .binvox file written by the voxelizer. -/
structure FsState where
  obj : Bool
  binvox : Bool
deriving DecidableEq, Repr

/-- Environment of the voxelization step: whether the binvox executable is
present, and whether the voxelizer subprocess succeeds in writing its
output file (the source never checks the return code of subprocess.call,
so failure only surfaces when the output file is missing). -/
structure VoxEnv where
  binvoxExeExists : Bool
  voxWrites : Bool
deriving DecidableEq, Repr

/-- Embedding of the temp-file lifecycle of create_single_data, lines
127-151.  NamedTemporaryFile is closed immediately (which deletes it), so
the file first exists when write_triangle_mesh runs.  If the executable is
missing the source unlinks the .obj and raises FileNotFoundError.
Otherwise it calls the voxelizer and opens the .binvox file: if the
subprocess produced nothing, open raises FileNotFoundError and the
os.unlink of the .obj on line 148 is never reached.  On success the .obj
is unlinked and the .binvox file is never deleted at all. -/
def create_single_data_voxstep (env : VoxEnv) : FsState × Except RigError Unit :=
  let s1 : FsState := { obj := true, binvox := false }
  if env.binvoxExeExists = false then
    ({ s1 with obj := false },
     .error (.FileNotFoundError "binvox executable not found"))
  else
    let s2 : FsState := { s1 with binvox := env.voxWrites }
    if s2.binvox = false then
      (s2, .error (.FileNotFoundError "binvox output file not found"))
    else
      ({ s2 with obj := false }, .ok ())

/-!  Joint prediction: predict_joints (rignetconnect.py 154-221).  -/

/-- Modelled from the spec: the voxel containment oracle answers
point-inside-mesh queries (is_inside(points) -> boolean array), and
inside_check keeps exactly the points inside together with their indices.
The implementation (utils.mst_utils.inside_check) is RigNet library code
that lives outside this repository; the voxel grid is abstracted to its
containment predicate. -/
def inside_check (pts : List Vec3) (vox : Vec3 → Bool) : List Vec3 × List Nat :=
  (pts.filter (fun p => vox p),
   (List.range pts.length).filter (fun i => vox (pts.getD i ((0 : ℚ), (0 : ℚ), (0 : ℚ)))))

/-- Output of the joint displacement network: per-vertex displacement,
per-vertex attention weight, and a bandwidth estimate. -/
structure JointPredOut where
  displacement : List Vec3
  attn : List ℚ
  bandwidth : ℚ

/-- The fields of the pytorch-geometric Data object that predict_joints
reads and writes. -/
structure JointData where
  pos : List Vec3
  joints : List Vec3
  pairs : List (Nat × Nat)
  pair_attr : List (ℚ × ℚ × ℚ)
deriving DecidableEq, Repr

/-- Elementwise sum of two point arrays (y_pred = data_displacement + pos). -/
def zipAdd (a b : List Vec3) : List Vec3 :=
  (a.zip b).map (fun p => (p.1.1 + p.2.1, p.1.2.1 + p.2.2.1, p.1.2.2 + p.2.2.2))

/-- Lines 169-172: drop candidates outside the mesh, then drop candidates
whose attention weight is not above 1e-3 (both arrays filtered by the
same mask). -/
def filterCandidates (y_pred : List Vec3) (attn : List ℚ) (vox : Vec3 → Bool) :
    List Vec3 × List ℚ :=
  let ic := inside_check y_pred vox
  let attn1 := ic.2.map (fun i => attn.getD i 0)
  let za := ic.1.zip attn1
  ((za.filter (fun pa => 1/1000 < pa.2)).map (·.1),
   (za.filter (fun pa => 1/1000 < pa.2)).map (·.2))

/-- Reflection across the symmetry plane (x negated), line 175. -/
def reflectX (p : Vec3) : Vec3 := (-p.1, p.2.1, p.2.2)

/-- Line 180-181: if not bandwidth, use the predicted one.  Python
falsiness means both None and 0.0 select the prediction. -/
def chosenBandwidth (bwArg : Option ℚ) (bw_pred : ℚ) : ℚ :=
  match bwArg with
  | none => bw_pred
  | some b => if b = 0 then bw_pred else b

/-- Squared euclidean distance between two points. -/
def sqDist (a b : Vec3) : ℚ :=
  (a.1 - b.1) ^ 2 + (a.2.1 - b.2.1) ^ 2 + (a.2.2 - b.2.2) ^ 2

/-- Lines 185-187: the truncated quadratic kernel density of each shifted
point, density[i] = sum over j of max(bandwidth^2 - |y_j - y_i|^2, 0). -/
def densityOf (bw : ℚ) (y : List Vec3) : List ℚ :=
  y.map (fun yi => (y.map (fun yj => max (bw ^ 2 - sqDist yj yi) 0)).sum)

/-- itertools.combinations(range(n), 2), in its order. -/
def combinations2 (n : Nat) : List (Nat × Nat) :=
  (List.range n).foldr
    (fun i acc => (((List.range n).drop (i + 1)).map (fun j => (i, j))) ++ acc) []

/-- Lines 201-207, one pair: the derived bone attributes.  dist is the
euclidean length (np.linalg.norm, supplied as the oracle normO applied to
the difference), bone_samples come from the external sample_on_bone, and
the value the source names outside_proportion is the number of samples
INSIDE the mesh divided by (number of samples + 1e-10). -/
def pairAttrOf (normO : Vec3 → ℚ) (sampleO : Vec3 → Vec3 → List Vec3)
    (vox : Vec3 → Bool) (joints : List Vec3) (pr : Nat × Nat) : ℚ × ℚ × ℚ :=
  let a := joints.getD pr.1 ((0 : ℚ), (0 : ℚ), (0 : ℚ))
  let b := joints.getD pr.2 ((0 : ℚ), (0 : ℚ), (0 : ℚ))
  let dist := normO (a.1 - b.1, a.2.1 - b.2.1, a.2.2 - b.2.2)
  let bone_samples := sampleO a b
  let bone_samples_inside := (inside_check bone_samples vox).1
  let outside_proportion :=
    (bone_samples_inside.length : ℚ) / ((bone_samples.length : ℚ) + 1/10000000000)
  (dist, outside_proportion, 1)

/-- Embedding of predict_joints (lines 154-221).  The learned network and
the RigNet clustering utilities (meanshift_cluster, nms_meanshift, flip,
sample_on_bone, np.linalg.norm) are oracle parameters.  The source has no
raise site: every path returns the updated data object. -/
def predict_joints
    (jointNetO : List Vec3 → JointPredOut)
    (meanshiftO : List Vec3 → ℚ → List ℚ → Nat → List Vec3)
    (nmsO : List Vec3 → List ℚ → ℚ → List Vec3)
    (flipO : List Vec3 → List Vec3 × List Nat)
    (normO : Vec3 → ℚ)
    (sampleO : Vec3 → Vec3 → List Vec3)
    (dat : JointData) (vox : Vec3 → Bool) (threshold : ℚ)
    (bandwidth : Option ℚ) : Except RigError JointData :=
  let net := jointNetO dat.pos
  let y_pred := zipAdd net.displacement dat.pos
  let fc := filterCandidates y_pred net.attn vox
  let y2 := fc.1 ++ fc.1.map reflectX
  let attn2 := fc.2 ++ fc.2
  let bw := chosenBandwidth bandwidth net.bandwidth
  let y3 := meanshiftO y2 bw attn2 40
  let density := densityOf bw y3
  let density_sum := density.sum
  let zd := y3.zip density
  let y4 := (zd.filter (fun pd => threshold < pd.2 / density_sum)).map (·.1)
  let density4 := (zd.filter (fun pd => threshold < pd.2 / density_sum)).map (·.2)
  let pred_joints := (flipO (nmsO y4 density4 bw)).1
  let pairs := combinations2 pred_joints.length
  let pair_attr := pairs.map (pairAttrOf normO sampleO vox pred_joints)
  .ok { dat with joints := pred_joints, pairs := pairs, pair_attr := pair_attr }

/-!  Skeleton prediction: predict_skeleton (rignetconnect.py 224-256).  -/

/-- The Info object: only its root field matters to the embedded part; the
tree type built by the external loadSkel_recur is abstract. -/
structure SkelInfo (T : Type) where
  root : Option T
deriving DecidableEq, Repr

/-- The root-selection loop of predict_skeleton (lines 249-252): the first
index whose parent entry is -1, if any; the source leaves root unset
(None) when there is none. -/
def findRootLoop (parent : List Int) : Option Nat :=
  (List.range parent.length).find? (fun i => decide (parent.getD i 0 = -1))

/-- Lines 241-242: scatter the connection probabilities at the pair index
positions of a zero matrix; a later pair overwrites an earlier duplicate,
as numpy fancy assignment does. -/
def scatterPairs (pairs : List (Nat × Nat)) (probs : List ℚ) : Nat → Nat → ℚ :=
  (pairs.zip probs).foldl
    (fun m pq => fun a b => if a = pq.1.1 ∧ b = pq.1.2 then pq.2 else m a b)
    (fun _ _ => 0)

/-- Lines 241-245: symmetrized probability matrix, cost = -log(prob+1e-10)
(np.log is the oracle negLogO applied to the guarded probability), then the
external increase_cost_for_outside_bone adjustment. -/
def skeleton_cost_matrix (negLogO : ℚ → ℚ)
    (costAdjustO : (Nat → Nat → ℚ) → List Vec3 → (Vec3 → Bool) → Nat → Nat → ℚ)
    (pairs : List (Nat × Nat)) (probs : List ℚ) (joints : List Vec3)
    (vox : Vec3 → Bool) : Nat → Nat → ℚ :=
  let pm := scatterPairs pairs probs
  let prob_matrix := fun i j => pm i j + pm j i
  let cost := fun i j => negLogO (prob_matrix i j + 1/10000000000)
  costAdjustO cost joints vox

/-- Embedding of predict_skeleton (lines 224-256).  Root network, bone
network (post-sigmoid probabilities per pair), primMST_symmetry and
loadSkel_recur are oracles.  After the root loop the source calls
loadSkel_recur(pred_skel.root, i, ...) where i is the break index, or the
last loop index when no parent is -1 (root then still None); with an empty
parent array the loop variable was never bound and Python raises
NameError.  There is no other raise site. -/
def predict_skeleton {T : Type}
    (getInitIdO : List Vec3 → Nat)
    (bonePredO : List (Nat × Nat) → List ℚ)
    (negLogO : ℚ → ℚ)
    (costAdjustO : (Nat → Nat → ℚ) → List Vec3 → (Vec3 → Bool) → Nat → Nat → ℚ)
    (primMSTO : (Nat → Nat → ℚ) → Nat → List Vec3 → List Int × List Nat)
    (loadSkelO : Option (String × Vec3) → Nat → List Vec3 → List Int → Option T)
    (joints : List Vec3) (pairs : List (Nat × Nat)) (vox : Vec3 → Bool) :
    Except RigError (SkelInfo T) :=
  let root_id := getInitIdO joints
  let cost := skeleton_cost_matrix negLogO costAdjustO pairs (bonePredO pairs) joints vox
  let parent := (primMSTO cost root_id joints).1
  if parent.length = 0 then .error .NameError
  else
    match findRootLoop parent with
    | some i =>
        .ok { root := loadSkelO (some ("root", joints.getD i ((0 : ℚ), (0 : ℚ), (0 : ℚ)))) i joints parent }
    | none =>
        .ok { root := loadSkelO none (parent.length - 1) joints parent }

/-!  Skinning weight finalization: predict_skinning lines 444-445.  -/

/-- Line 444 for one row: zero every weight strictly below 0.35 times the
row maximum (the maximum of the row before any zeroing). -/
def thresholdRow (row : List ℚ) : List ℚ :=
  row.map (fun w => if w < listMax row * (35/100) then 0 else w)

/-- Line 445 for one row: divide by the row sum plus the 1e-10 guard. -/
def renormalizeRow (row : List ℚ) : List ℚ :=
  row.map (fun w => w / (row.sum + 1/10000000000))

/-- The final thresholding and renormalization step of predict_skinning
applied to the full (post smoothing filter) weight matrix. -/
def predict_skinning_final (skin_pred_full : List (List ℚ)) : List (List ℚ) :=
  skin_pred_full.map (fun row => renormalizeRow (thresholdRow row))

/-- num_nearest_bone (line 391). -/
def num_nearest_bone : Nat := 5

/-- Stable insertion of an index into an index list sorted by key,
auxiliary for argsort. -/
def insertIdx (key : Nat → ℚ) (i : Nat) : List Nat → List Nat
  | [] => [i]
  | j :: js => if key i < key j then i :: j :: js else j :: insertIdx key i js

/-- np.argsort of a row: its indices ordered by ascending value (the tie
order of the numpy sort is immaterial to the claims). -/
def argsortQ (l : List ℚ) : List Nat :=
  (List.range l.length).foldr
    (fun i acc => insertIdx (fun k => l.getD k 0) i acc) []

/-- Lines 403-419 for one vertex: the five nearest-bone slot indices
(this_nn); when fewer than num_nearest_bone bones exist the remaining
slots are padded with bone index 0. -/
def skinNNRow (B : Nat) (order : List Nat) : List Nat :=
  (List.range num_nearest_bone).map (fun i => if i < B then order.getD i 0 else 0)

/-- Lines 403-419: the loss mask row (this_mask), 1 for real slots and 0
for padded slots; it only depends on the bone count, so it is identical
for every vertex. -/
def lossMaskRow (B : Nat) : List ℚ :=
  (List.range num_nearest_bone).map (fun i => if i < B then 1 else 0)

/-- Lines 437-440 for one vertex: scatter the five masked slot weights
into a row over all bones, starting from zeros; as with numpy
assignment, a later slot targeting the same bone index overwrites an
earlier one. -/
def scatterRow (nBones : Nat) (nn : List Nat) (pred : List ℚ) : List ℚ :=
  (List.range num_nearest_bone).foldl
    (fun row k => row.set (nn.getD k 0) (pred.getD k 0))
    (List.replicate nBones 0)

/-- Embedding of the skinning weight assembly of predict_skinning (lines
400-445): nearest-bone slots by argsort of each geodesic row with
zero-padding, the softmax output of the external network (supplied as a
matrix) times the loss mask (line 434), the scatter into the vertex by
bones matrix (lines 437-440), the external post_filter smoothing (an
oracle closing over the mesh topology edge list and num_ring=1), then
the thresholding and renormalization of lines 444-445. -/
def predict_skinning_assemble (postFilterO : List (List ℚ) → List (List ℚ))
    (softmaxOut : List (List ℚ)) (geo_dist : List (List ℚ)) (B : Nat) :
    List (List ℚ) :=
  let skin_nn := geo_dist.map (fun row => skinNNRow B (argsortQ row))
  let skin_pred := softmaxOut.map
    (fun row => (row.zip (lossMaskRow B)).map (fun p => p.1 * p.2))
  let skin_pred_full := (skin_pred.zip skin_nn).map (fun p => scatterRow B p.2 p.1)
  predict_skinning_final (postFilterO skin_pred_full)

/-!  Volumetric geodesic estimation: calc_geodesic_matrix (259-312) and
calc_geodesic_matrix_2 (315-377), in their no-subsampling branches.  -/

/-- np.argwhere(vis[:, b] == 1).squeeze(1): the ascending indices of the
points visible to bone b. -/
def visiblePts (P : Nat) (vis : Nat → Nat → Bool) (b : Nat) : List Nat :=
  (List.range P).filter (fun p => vis p b)

/-- np.argwhere(vis[:, b] == 0).squeeze(1): indices of occluded points. -/
def unvisiblePts (P : Nat) (vis : Nat → Nat → Bool) (b : Nat) : List Nat :=
  (List.range P).filter (fun p => !vis p b)

/-- Lines 285-290 for one bone: when the bone has visible points, compute
the 15th percentile of their distances and revoke visibility of every
point whose distance exceeds 1.3 times that percentile. -/
def pruneBone (pct : List ℚ → ℚ) (P : Nat) (dist : Nat → Nat → ℚ)
    (vis : Nat → Nat → Bool) (b : Nat) : Nat → Nat → Bool :=
  let vp := visiblePts P vis b
  if vp.isEmpty then vis
  else
    let t := pct (vp.map (fun p => dist p b))
    fun p bi => if bi = b ∧ 13/10 * t < dist p b then false else vis p bi

/-- The pruning loop over all bones. -/
def pruneVisibility (pct : List ℚ → ℚ) (P B : Nat) (dist : Nat → Nat → ℚ)
    (vis : Nat → Nat → Bool) : Nat → Nat → Bool :=
  (List.range B).foldl (fun v b => pruneBone pct P dist v b) vis

/-- Lines 292-293: visible_matrix starts as the distances at visible
entries and zero elsewhere. -/
def initVisibleMatrix (dist : Nat → Nat → ℚ) (vis : Nat → Nat → Bool) :
    Nat → Nat → ℚ :=
  fun p b => if vis p b then dist p b else 0

/-- Lines 301-306 for one occluded point r against bone c: take the
minimum surface geodesic distance to a visible point and the FIRST visible
point attaining it (np.min and np.argmin); if that minimum is infinite the
value is 8.0 plus the raw point-to-bone distance, otherwise it is the
geodesic minimum plus the visible_matrix entry of that nearest visible
point. -/
def imputeVal (sg : Nat → Nat → Option ℚ) (dist : Nat → Nat → ℚ)
    (vp : List Nat) (c : Nat) (vm : Nat → Nat → ℚ) (r : Nat) : ℚ :=
  let geos := vp.map (fun v => sg r v)
  match listOMin geos with
  | none => 8 + dist r c
  | some d1 => d1 + vm (vp.getD (geos.indexOf (some d1)) 0) c

/-- Lines 294-306 for one bone column c: if no point is visible the whole
column is overwritten with the raw distances; otherwise every occluded
point gets its imputed value, in index order. -/
def imputeBone (P : Nat) (sg : Nat → Nat → Option ℚ) (dist : Nat → Nat → ℚ)
    (vis : Nat → Nat → Bool) (c : Nat) (vm : Nat → Nat → ℚ) : Nat → Nat → ℚ :=
  let up := unvisiblePts P vis c
  let vp := visiblePts P vis c
  if vp.isEmpty then fun p b => if b = c then dist p b else vm p b
  else
    up.foldl
      (fun m r => fun p b =>
        if p = r ∧ b = c then imputeVal sg dist vp c m r else m p b)
      vm

/-- Lines 284-306: prune visibility, initialize visible_matrix, then run
the imputation loop over every bone column. -/
def computeVisibleMatrix (pct : List ℚ → ℚ) (P B : Nat)
    (sg : Nat → Nat → Option ℚ) (dist : Nat → Nat → ℚ)
    (vis0 : Nat → Nat → Bool) : Nat → Nat → ℚ :=
  let vis := pruneVisibility pct P B dist vis0
  (List.range B).foldl (fun vm c => imputeBone P sg dist vis c vm)
    (initVisibleMatrix dist vis)

/-- Embedding of calc_geodesic_matrix with subsampling=False (lines
277-306, 312): subsamples are the mesh vertices themselves; pts2line and
calc_pts2bone_visible_mat are oracles returning the flat arrays which the
source reshapes to (B, P) and transposes, so entry (p, b) sits at flat
index b * P + p; the trimesh surface loaded from mesh_filename is the
abstract mesh argument. -/
def calc_geodesic_matrix {Mesh : Type}
    (pts2lineO : List Vec3 → List Bone → List Vec3 × List Vec3 × (Nat → ℚ))
    (visO : Mesh → List Vec3 → List Vec3 → Nat → Bool)
    (pct : List ℚ → ℚ) (bones : List Bone) (mesh_v : List Vec3)
    (surface_geodesic : Nat → Nat → Option ℚ) (mesh_trimesh : Mesh) :
    Nat → Nat → ℚ :=
  let subsamples := mesh_v
  let pl := pts2lineO subsamples bones
  let flatVis := visO mesh_trimesh pl.1 pl.2.1
  let P := subsamples.length
  let B := bones.length
  let dist : Nat → Nat → ℚ := fun p b => pl.2.2 (b * P + p)
  let vis : Nat → Nat → Bool := fun p b => flatVis (b * P + p)
  computeVisibleMatrix pct P B surface_geodesic dist vis

/-- Embedding of calc_geodesic_matrix_2 with use_sampling=False (lines
338-372, 377): identical computation, the only difference in the source
being that the trimesh surface is obtained by exporting the module-global
MESH_NORMALIZED to a temporary file and reloading it, again abstracted as
the mesh argument. -/
def calc_geodesic_matrix_2 {Mesh : Type}
    (pts2lineO : List Vec3 → List Bone → List Vec3 × List Vec3 × (Nat → ℚ))
    (visO : Mesh → List Vec3 → List Vec3 → Nat → Bool)
    (pct : List ℚ → ℚ) (bones : List Bone) (mesh_v : List Vec3)
    (surface_geodesic : Nat → Nat → Option ℚ) (mesh_trimesh : Mesh) :
    Nat → Nat → ℚ :=
  let subsamples := mesh_v
  let pl := pts2lineO subsamples bones
  let flatVis := visO mesh_trimesh pl.1 pl.2.1
  let P := subsamples.length
  let B := bones.length
  let dist : Nat → Nat → ℚ := fun p b => pl.2.2 (b * P + p)
  let vis : Nat → Nat → Bool := fun p b => flatVis (b * P + p)
  computeVisibleMatrix pct P B surface_geodesic dist vis

/-- The quantity claim C1 prescribes, in the words of the specification:
the minimum, over all visible points to the bone, of the surface geodesic
distance to that visible point plus the distance of that same point to
the bone. -/
def specCombinedMin (vp : List Nat) (sg : Nat → Nat → Option ℚ)
    (dist : Nat → Nat → ℚ) (r c : Nat) : Option ℚ :=
  listOMin (vp.map (fun v => (sg r v).map (fun g => g + dist v c)))

/-!  Concrete instances used by witnesses and counterexamples.  -/

/-- A heap holding one two-vertex array, for the in-place claim. -/
def storeEx : Store := [[((0 : ℚ), (0 : ℚ), (0 : ℚ)), ((2 : ℚ), (0 : ℚ), (0 : ℚ))]]

/-- The result normalize_obj_st produces on storeEx at reference 0. -/
def stOutEx : Store × Nat × Vec3 × ℚ :=
  ([[((-1/2 : ℚ), (0 : ℚ), (0 : ℚ)), ((1/2 : ℚ), (0 : ℚ), (0 : ℚ))]],
   0, ((1 : ℚ), (0 : ℚ), (0 : ℚ)), 1/2)

/-- Point-to-bone distances of the three-point, one-bone geodesic
instance, as the flat array pts2line would return: point 0 at distance 1,
point 1 at 2/5, point 2 at 3/10. -/
def distC1flat : Nat → ℚ := fun i => ([1, 2/5, 3/10] : List ℚ).getD i 0

/-- The same distances as a (point, bone) matrix, through the flat
bone-major layout the source reshapes (entry (p, b) at flat index
b * P + p with P = 3). -/
def distC1 : Nat → Nat → ℚ := fun p b => distC1flat (b * 3 + p)

/-- Visibility of the instance through the same flat layout: point 0
occluded, points 1 and 2 visible. -/
def visC1 : Nat → Nat → Bool :=
  fun p b => ([false, true, true] : List Bool).getD (b * 3 + p) false

/-- Surface geodesic matrix of the instance: point 0 is at geodesic
distance 1/10 from point 1 and 3/20 from point 2. -/
def sgC1 : Nat → Nat → Option ℚ := fun r v =>
  (([[none, some (1/10), some (3/20)],
     [some (1/10), none, none],
     [some (3/20), none, none]] : List (List (Option ℚ))).getD r []).getD v none

/-- The single bone of the instance. -/
def bonesC1 : List Bone := [(((0 : ℚ), (0 : ℚ), (0 : ℚ)), ((0 : ℚ), (0 : ℚ), (1 : ℚ)))]

/-- The three sample points of the instance. -/
def meshC1 : List Vec3 :=
  [((0 : ℚ), (0 : ℚ), (0 : ℚ)), ((1 : ℚ), (0 : ℚ), (0 : ℚ)), ((2 : ℚ), (0 : ℚ), (0 : ℚ))]

/-- pts2line oracle of the instance: returns the flat distance array. -/
def pts2lineC1 : List Vec3 → List Bone → List Vec3 × List Vec3 × (Nat → ℚ) :=
  fun _ _ => ([], [], distC1flat)

/-- Visibility oracle of the instance (flat array, bone-major). -/
def visOC1 : Unit → List Vec3 → List Vec3 → Nat → Bool :=
  fun _ _ _ i => ([false, true, true] : List Bool).getD i false

/-- Joint network oracle for the all-filtered predict_joints instance:
one candidate with attention weight 0, which the 1e-3 cut removes. -/
def jnetC4 : List Vec3 → JointPredOut :=
  fun _ => { displacement := [((0 : ℚ), (0 : ℚ), (0 : ℚ))], attn := [0], bandwidth := 1 }

/-- Input data of the all-filtered instance. -/
def datC4 : JointData := { pos := [((5 : ℚ), (5 : ℚ), (5 : ℚ))], joints := [], pairs := [], pair_attr := [] }

/-- Joint network oracle of the two-joint instance: one candidate with
attention 1. -/
def jnetC7 : List Vec3 → JointPredOut :=
  fun _ => { displacement := [((0 : ℚ), (0 : ℚ), (0 : ℚ))], attn := [1], bandwidth := 1 }

/-- Input data of the two-joint instance. -/
def datC7 : JointData := { pos := [((1 : ℚ), (2 : ℚ), (3 : ℚ))], joints := [], pairs := [], pair_attr := [] }

/-- Bone sampling oracle of the two-joint instance: two sample points,
both inside the all-true voxel oracle. -/
def sampleC7 : Vec3 → Vec3 → List Vec3 :=
  fun _ _ => [((0 : ℚ), (2 : ℚ), (3 : ℚ)), ((1/2 : ℚ), (2 : ℚ), (3 : ℚ))]

/-- The data object predict_joints produces on the two-joint instance:
the second bone attribute is the INSIDE count 2 over (2 + 1e-10). -/
def dExC7 : JointData :=
  { pos := [((1 : ℚ), (2 : ℚ), (3 : ℚ))],
    joints := [((1 : ℚ), (2 : ℚ), (3 : ℚ)), ((-1 : ℚ), (2 : ℚ), (3 : ℚ))],
    pairs := [(0, 1)],
    pair_attr := [((2 : ℚ), (20000000000/20000000001 : ℚ), (1 : ℚ))] }

/-- MST oracle of the rootless skeleton instance: a parent array with no
-1 entry. -/
def primMSTC5 : (Nat → Nat → ℚ) → Nat → List Vec3 → List Int × List Nat :=
  fun _ _ _ => ([(0 : Int), (1 : Int)], [0, 1])

/-- Joints of the rootless skeleton instance. -/
def jointsC5 : List Vec3 := [((0 : ℚ), (0 : ℚ), (0 : ℚ)), ((1 : ℚ), (0 : ℚ), (0 : ℚ))]

/-- Vertex array of the invertibility witness. -/
def vExC8 : List Vec3 := [((0 : ℚ), (0 : ℚ), (0 : ℚ)), ((1 : ℚ), (2 : ℚ), (3 : ℚ))]

/-- The normalized vertices normalize_obj produces on vExC8. -/
def nvExC8 : List Vec3 :=
  [((-1/6 : ℚ), (0 : ℚ), (-1/2 : ℚ)), ((1/6 : ℚ), (2/3 : ℚ), (1/2 : ℚ))]

/-- One row of skinning weights used as witness instance. -/
def rowC2 : List ℚ := [1/2, 1/4, 1/100]

/-- The one-row weight matrix of the witness instance. -/
def matC2 : List (List ℚ) := [rowC2]

/-!  Helper lemmas.  -/

/-- Summing a list divided elementwise equals the divided sum. -/
theorem sum_map_div (l : List ℚ) (d : ℚ) :
    (l.map (fun w => w / d)).sum = l.sum / d := by
  induction l with
  | nil => simp
  | cons x xs ih => simp [ih, add_div]

/-- A left fold of max lands on the seed or on a list element. -/
theorem foldl_max_mem : ∀ (xs : List ℚ) (x : ℚ),
    xs.foldl max x = x ∨ xs.foldl max x ∈ xs := by
  intro xs
  induction xs with
  | nil => intro x; left; rfl
  | cons y ys ih =>
    intro x
    rcases ih (max x y) with h | h
    · rcases max_choice x y with hxy | hxy
      · left; rw [List.foldl_cons, h, hxy]
      · right; rw [List.foldl_cons, h, hxy]; exact List.mem_cons_self y ys
    · right; rw [List.foldl_cons]; exact List.mem_cons_of_mem y h

/-- The list maximum is an element of a nonempty list. -/
theorem listMax_mem (l : List ℚ) (h : l ≠ []) : listMax l ∈ l := by
  match l, h with
  | x :: xs, _ =>
    show xs.foldl max x ∈ x :: xs
    rcases foldl_max_mem xs x with h2 | h2
    · rw [h2]; exact List.mem_cons_self x xs
    · exact List.mem_cons_of_mem x h2

/-- A left fold of oMin lands on the seed or on a list element. -/
theorem foldl_oMin_mem : ∀ (l : List (Option ℚ)) (acc : Option ℚ),
    l.foldl oMin acc = acc ∨ l.foldl oMin acc ∈ l := by
  intro l
  induction l with
  | nil => intro acc; left; rfl
  | cons x xs ih =>
    intro acc
    have hox : oMin acc x = acc ∨ oMin acc x = x := by
      rcases acc with _ | a <;> rcases x with _ | b
      · left; rfl
      · right; rfl
      · left; rfl
      · rcases min_choice a b with hm | hm
        · left; simp [oMin, hm]
        · right; simp [oMin, hm]
    rcases ih (oMin acc x) with h | h
    · rw [List.foldl_cons, h]
      rcases hox with h2 | h2
      · left; exact h2
      · right; rw [h2]; exact List.mem_cons_self x xs
    · right; rw [List.foldl_cons]; exact List.mem_cons_of_mem x h

/-- The extended minimum of a nonempty list is an element of it. -/
theorem listOMin_mem (l : List (Option ℚ)) (h : l ≠ []) : listOMin l ∈ l := by
  match l, h with
  | x :: xs, _ =>
    show (x :: xs).foldl oMin none ∈ x :: xs
    rw [List.foldl_cons]
    have hx : oMin none x = x := by rcases x with _ | a <;> rfl
    rw [hx]
    rcases foldl_oMin_mem xs x with h2 | h2
    · rw [h2]; exact List.mem_cons_self x xs
    · exact List.mem_cons_of_mem x h2

/-- getD at an in-range index is a member of the list. -/
theorem getD_mem {α : Type} (l : List α) (n : Nat) (d : α) (h : n < l.length) :
    l.getD n d ∈ l := by
  rw [List.getD_eq_getElem?_getD, List.getElem?_eq_getElem h]
  exact List.getElem_mem h

/-- Mapping over an in-range index commutes with getD. -/
theorem getD_map_lt {α β : Type} (f : α → β) (l : List α) (i : Nat) (d : β)
    (d2 : α) (h : i < l.length) : (l.map f).getD i d = f (l.getD i d2) := by
  rw [List.getD_eq_getElem?_getD, List.getD_eq_getElem?_getD,
      List.getElem?_eq_getElem (by simpa using h), List.getElem?_eq_getElem h,
      List.getElem_map]
  rfl

/-- Reading back the array just written. -/
theorem readRef_write_same (σ : Store) (r : Nat) (v : List Vec3)
    (h : r < σ.length) : readRef (writeRef σ r v) r = v := by
  unfold readRef writeRef
  rw [List.getD_eq_getElem?_getD, List.getElem?_set_self h]
  rfl

/-- Writing one array leaves every other reference unchanged. -/
theorem readRef_write_ne (σ : Store) (r q : Nat) (v : List Vec3)
    (h : q ≠ r) : readRef (writeRef σ r v) q = readRef σ q := by
  unfold readRef writeRef
  rw [List.getD_eq_getElem?_getD, List.getD_eq_getElem?_getD,
      List.getElem?_set_ne (Ne.symm h)]

/-!  Claim C3.  -/

/-- C3 counterexample: on a degenerate mesh whose extent is zero along all
three axes, normalize_obj does not fail with DegenerateMeshError; it
returns normally, having computed scale as the quotient of 1 by the zero
maximum extent (inf with a mere warning in numpy, the junk value 0 in this
rational model). -/
theorem C3_counterexample :
    normalize_obj [((0 : ℚ), (0 : ℚ), (0 : ℚ)), ((0 : ℚ), (0 : ℚ), (0 : ℚ))] ≠
      .error RigError.DegenerateMeshError ∧
    normalize_obj [((0 : ℚ), (0 : ℚ), (0 : ℚ)), ((0 : ℚ), (0 : ℚ), (0 : ℚ))] =
      .ok ([((0 : ℚ), (0 : ℚ), (0 : ℚ)), ((0 : ℚ), (0 : ℚ), (0 : ℚ))],
           ((0 : ℚ), (0 : ℚ), (0 : ℚ)), 0) := by
  constructor
  · simp [normalize_obj, minmaxQ]
  · simp [normalize_obj, minmaxQ]

/-- C3 (amended): normalize_obj performs no degeneracy check at all: on
every nonempty vertex array, including zero-extent ones, it returns
successfully; no DegenerateMeshError exists anywhere in the code. -/
theorem C3_theorem (mesh_v : List Vec3) (h : mesh_v ≠ []) :
    (normalize_obj mesh_v).isOk = true := by
  match mesh_v, h with
  | p :: rest, _ =>
    show (normalize_obj (p :: rest)).isOk = true
    rfl

/-- C3 witness: the amended theorem applied to a concrete one-vertex mesh. -/
theorem C3_witness :
    ([((0 : ℚ), (0 : ℚ), (0 : ℚ))] : List Vec3) ≠ [] ∧
    (normalize_obj [((0 : ℚ), (0 : ℚ), (0 : ℚ))]).isOk = true :=
  ⟨by decide, C3_theorem _ (by decide)⟩

/-!  Claim C6.  -/

/-- C6 counterexample: on the success path create_single_data leaves the
.binvox file behind; when the voxelization subprocess fails to produce
output, the .obj temp file is left behind; and a missing executable raises
the builtin FileNotFoundError, not a dedicated ToolingUnavailableError. -/
theorem C6_counterexample :
    (create_single_data_voxstep ⟨true, true⟩).1.binvox = true ∧
    (create_single_data_voxstep ⟨true, false⟩).1.obj = true ∧
    (create_single_data_voxstep ⟨false, true⟩).2 =
      .error (.FileNotFoundError "binvox executable not found") ∧
    (create_single_data_voxstep ⟨false, true⟩).2 ≠
      .error RigError.ToolingUnavailableError := by
  refine ⟨by decide, by decide, by decide, by decide⟩

/-- C6 (amended): the complete temp-file behaviour of the voxelization
step.  Missing executable: the .obj is unlinked and the builtin
FileNotFoundError (not ToolingUnavailableError) is raised.  Subprocess
producing no output: FileNotFoundError from opening the .binvox
propagates and the .obj is leaked.  Success: the .obj is unlinked but the
.binvox file is always left behind. -/
theorem C6_theorem :
    (create_single_data_voxstep ⟨false, false⟩ =
      (⟨false, false⟩, .error (.FileNotFoundError "binvox executable not found"))) ∧
    (create_single_data_voxstep ⟨false, true⟩ =
      (⟨false, false⟩, .error (.FileNotFoundError "binvox executable not found"))) ∧
    (create_single_data_voxstep ⟨true, false⟩ =
      (⟨true, false⟩, .error (.FileNotFoundError "binvox output file not found"))) ∧
    (create_single_data_voxstep ⟨true, true⟩ = (⟨false, true⟩, .ok ())) := by
  refine ⟨by decide, by decide, by decide, by decide⟩

/-!  Claim C9.  -/

/-- C9: calc_geodesic_matrix with subsampling=False and
calc_geodesic_matrix_2 with use_sampling=False compute identical
volumetric distance matrices whenever they operate on the same triangle
mesh surface, the same oracles, bones, vertices and surface geodesic
matrix: the two bodies are the same algorithm. -/
theorem C9_theorem {Mesh : Type}
    (pts2lineO : List Vec3 → List Bone → List Vec3 × List Vec3 × (Nat → ℚ))
    (visO : Mesh → List Vec3 → List Vec3 → Nat → Bool)
    (pct : List ℚ → ℚ) (bones : List Bone) (mesh_v : List Vec3)
    (surface_geodesic : Nat → Nat → Option ℚ) (mesh_trimesh : Mesh) :
    calc_geodesic_matrix pts2lineO visO pct bones mesh_v surface_geodesic mesh_trimesh
      = calc_geodesic_matrix_2 pts2lineO visO pct bones mesh_v surface_geodesic mesh_trimesh :=
  rfl

/-!  Claim C10.  -/

/-- C10: normalize_obj mutates its input vertex array in place: on
success the returned reference is the very array reference passed in, the
heap cell at that reference now holds exactly the translated and scaled
positions (the value the pure normalize_obj computes from the old
contents), and every other array in the heap is untouched. -/
theorem C10_theorem (σ : Store) (r : Nat) (hr : r < σ.length)
    (out : Store × Nat × Vec3 × ℚ) (hok : normalize_obj_st σ r = .ok out) :
    out.2.1 = r ∧
    normalize_obj (readRef σ r) = .ok (readRef out.1 r, out.2.2.1, out.2.2.2) ∧
    ∀ q, q ≠ r → readRef out.1 q = readRef σ q := by
  rcases hmesh : readRef σ r with _ | ⟨p, rest⟩
  · exfalso
    unfold normalize_obj_st at hok
    rw [hmesh] at hok
    simp [minmaxQ] at hok
  · unfold normalize_obj_st at hok
    rw [hmesh] at hok
    simp only [List.map_cons, minmaxQ] at hok
    injection hok with hout
    subst hout
    refine ⟨rfl, ?_, ?_⟩
    · unfold normalize_obj
      simp only [List.map_cons, minmaxQ]
      rw [readRef_write_same _ _ _ (by simpa [writeRef, List.length_set] using hr),
          readRef_write_same _ _ _ (by simpa [writeRef, List.length_set] using hr),
          readRef_write_same _ _ _ (by simpa [writeRef, List.length_set] using hr),
          readRef_write_same _ _ _ (by simpa [writeRef, List.length_set] using hr)]
      simp [List.map_map, Function.comp]
    · intro q hq
      rw [readRef_write_ne _ _ _ _ hq, readRef_write_ne _ _ _ _ hq,
          readRef_write_ne _ _ _ _ hq, readRef_write_ne _ _ _ _ hq]

/-- C10 witness: the in-place theorem applied to a concrete heap holding
one two-vertex array at reference 0. -/
theorem C10_witness :
    normalize_obj_st storeEx 0 = .ok stOutEx ∧ stOutEx.2.1 = 0 ∧
    normalize_obj (readRef storeEx 0) =
      .ok (readRef stOutEx.1 0, stOutEx.2.2.1, stOutEx.2.2.2) := by
  have hok : normalize_obj_st storeEx 0 = .ok stOutEx := by
    simp [normalize_obj_st, storeEx, stOutEx, readRef, writeRef, minmaxQ]
    norm_num
  have h := C10_theorem storeEx 0 (by simp [storeEx]) stOutEx hok
  exact ⟨hok, h.1, h.2.1⟩

/-!  Claim C8.  -/

/-- minmaxQ on a nonempty list yields the pair of total min and max. -/
theorem minmaxQ_eq (l : List ℚ) (h : l ≠ []) :
    minmaxQ l = .ok (listMin l, listMax l) := by
  match l, h with
  | x :: xs, _ => rfl

/-- The scale denominator of normalize_obj is maxExtent. -/
theorem maxExtent_eq (mesh_v : List Vec3) :
    max (max (listMax (mesh_v.map (·.1)) - listMin (mesh_v.map (·.1)))
             (listMax (mesh_v.map (·.2.1)) - listMin (mesh_v.map (·.2.1))))
        (listMax (mesh_v.map (·.2.2)) - listMin (mesh_v.map (·.2.2)))
      = maxExtent mesh_v := rfl

/-- C8: for every nonempty vertex array with positive maximum extent the
transform produced by normalize_obj is invertible in exact rational
arithmetic: the returned scale is nonzero, and dividing each normalized
vertex by it and adding back the returned pivot recovers the original
position. -/
theorem C8_theorem (mesh_v : List Vec3) (hne : mesh_v ≠ [])
    (hpos : 0 < maxExtent mesh_v)
    (nv : List Vec3) (pivot : Vec3) (scale : ℚ)
    (hok : normalize_obj mesh_v = .ok (nv, pivot, scale)) :
    scale ≠ 0 ∧
    ∀ i, i < mesh_v.length →
      ((nv.getD i ((0 : ℚ), (0 : ℚ), (0 : ℚ))).1 / scale + pivot.1,
       (nv.getD i ((0 : ℚ), (0 : ℚ), (0 : ℚ))).2.1 / scale + pivot.2.1,
       (nv.getD i ((0 : ℚ), (0 : ℚ), (0 : ℚ))).2.2 / scale + pivot.2.2)
        = mesh_v.getD i ((0 : ℚ), (0 : ℚ), (0 : ℚ)) := by
  have hx : mesh_v.map (·.1) ≠ [] := by simpa using hne
  have hy : mesh_v.map (·.2.1) ≠ [] := by simpa using hne
  have hz : mesh_v.map (·.2.2) ≠ [] := by simpa using hne
  unfold normalize_obj at hok
  rw [minmaxQ_eq _ hx, minmaxQ_eq _ hy, minmaxQ_eq _ hz] at hok
  simp only [maxExtent_eq, Except.ok.injEq, Prod.mk.injEq] at hok
  obtain ⟨h1, h2, h3⟩ := hok
  subst h1 h2 h3
  have hs : (1 : ℚ) / maxExtent mesh_v ≠ 0 := one_div_ne_zero (ne_of_gt hpos)
  refine ⟨hs, ?_⟩
  intro i hi
  rw [getD_map_lt _ _ _ _ ((0 : ℚ), (0 : ℚ), (0 : ℚ)) (by simpa using hi),
      getD_map_lt _ _ _ _ ((0 : ℚ), (0 : ℚ), (0 : ℚ)) hi]
  rw [mul_div_cancel_right₀ _ hs, mul_div_cancel_right₀ _ hs,
      mul_div_cancel_right₀ _ hs, sub_add_cancel, sub_add_cancel, sub_add_cancel]

/-- C8 witness: invertibility checked on a concrete two-vertex array. -/
theorem C8_witness :
    normalize_obj vExC8 = .ok (nvExC8, ((1/2 : ℚ), (0 : ℚ), (3/2 : ℚ)), (1/3 : ℚ)) ∧
    ((1/3 : ℚ) ≠ 0) ∧
    ((nvExC8.getD 0 ((0 : ℚ), (0 : ℚ), (0 : ℚ))).1 / (1/3 : ℚ) + (1/2 : ℚ),
     (nvExC8.getD 0 ((0 : ℚ), (0 : ℚ), (0 : ℚ))).2.1 / (1/3 : ℚ) + (0 : ℚ),
     (nvExC8.getD 0 ((0 : ℚ), (0 : ℚ), (0 : ℚ))).2.2 / (1/3 : ℚ) + (3/2 : ℚ))
      = vExC8.getD 0 ((0 : ℚ), (0 : ℚ), (0 : ℚ)) := by
  have hok : normalize_obj vExC8 =
      .ok (nvExC8, ((1/2 : ℚ), (0 : ℚ), (3/2 : ℚ)), (1/3 : ℚ)) := by
    norm_num [normalize_obj, minmaxQ, vExC8, nvExC8]
  have h := C8_theorem vExC8 (by simp [vExC8])
    (by norm_num [maxExtent, vExC8, listMax, listMin])
    nvExC8 ((1/2 : ℚ), (0 : ℚ), (3/2 : ℚ)) (1/3 : ℚ) hok
  exact ⟨hok, h.1, h.2 0 (by simp [vExC8])⟩

/-!  Claim C2.  -/

/-- C2 counterexample: with a single bone (a two-joint skeleton), the
padded slots carry bone index 0 with mask 0, so the scatter loop of
lines 437-440 writes column 0 last with the masked value 0 for every
vertex: the assembled skin_pred_full is identically zero, the smoothing
filter keeps the zero matrix zero (instantiated here as the identity,
which agrees with any weighted-average filter on zero input), and after
the thresholding and renormalization of lines 444-445 the final row sums
to 0, not 1 -- refuting the unconditional row-stochastic claim.  The
softmax row used is a genuine softmax output: positive entries summing
to 1. -/
theorem C2_counterexample :
    predict_skinning_assemble id [[1/5, 1/5, 1/5, 1/5, 1/5]] [[(1 : ℚ)/2]] 1
      = [[0]] ∧
    ([(0 : ℚ)]).sum = 0 ∧ ((0 : ℚ) ≠ 1) := by
  have hr1 : List.range 1 = [0] := rfl
  have hr5 : List.range 5 = [0, 1, 2, 3, 4] := rfl
  have hrep : List.replicate 1 (0 : ℚ) = [0] := rfl
  refine ⟨?_, by norm_num, by norm_num⟩
  norm_num [predict_skinning_assemble, predict_skinning_final, skinNNRow,
    lossMaskRow, scatterRow, argsortQ, insertIdx, thresholdRow, renormalizeRow,
    listMax, num_nearest_bone, hr1, hr5, hrep]

/-- C2 (amended): after the smoothing filter, the thresholding of line
444 zeroes exactly the entries strictly below 0.35 times the row
maximum, and the renormalization of line 445 yields a row that is
entrywise nonnegative with sum T/(T + 1e-10), which lies within 1e-10
divided by the row maximum of 1 (strictly below 1, at least
1 - 1e-10/max), for every row that is nonnegative with a POSITIVE
maximum.  The positivity proviso is necessary: a skeleton with a single
bone makes every smoothed row identically zero (see the counterexample),
and such rows renormalize to sum 0, not 1. -/
theorem C2_theorem (m : List (List ℚ)) (row : List ℚ) (hmem : row ∈ m)
    (hnn : ∀ w ∈ row, 0 ≤ w) (hmax : 0 < listMax row) :
    renormalizeRow (thresholdRow row) ∈ predict_skinning_final m ∧
    (∀ i, i < row.length → row.getD i 0 < listMax row * (35/100) →
       (thresholdRow row).getD i 0 = 0) ∧
    (∀ w ∈ renormalizeRow (thresholdRow row), 0 ≤ w) ∧
    1 - (1/10000000000) / listMax row ≤ (renormalizeRow (thresholdRow row)).sum ∧
    (renormalizeRow (thresholdRow row)).sum < 1 := by
  have htnn : ∀ w ∈ thresholdRow row, 0 ≤ w := by
    intro w hw
    obtain ⟨v, hv, rfl⟩ := List.mem_map.mp hw
    by_cases hc : v < listMax row * (35/100)
    · simp [hc]
    · simpa [hc] using hnn v hv
  have hrne : row ≠ [] := by
    intro h
    rw [h] at hmax
    simp [listMax] at hmax
  have hMt : listMax row ∈ thresholdRow row := by
    refine List.mem_map.mpr ⟨listMax row, listMax_mem row hrne, ?_⟩
    have : ¬ (listMax row < listMax row * (35/100)) := by nlinarith
    simp [this]
  have hMT : listMax row ≤ (thresholdRow row).sum :=
    List.single_le_sum htnn _ hMt
  have hden : (0 : ℚ) < (thresholdRow row).sum + 1/10000000000 := by
    have : (0 : ℚ) < 1/10000000000 := by norm_num
    linarith
  have hsum : (renormalizeRow (thresholdRow row)).sum =
      (thresholdRow row).sum / ((thresholdRow row).sum + 1/10000000000) :=
    sum_map_div (thresholdRow row) _
  refine ⟨List.mem_map_of_mem _ hmem, ?_, ?_, ?_, ?_⟩
  · intro i hi hlt
    unfold thresholdRow
    rw [getD_map_lt _ _ _ _ 0 hi, if_pos hlt]
  · intro w hw
    obtain ⟨v, hv, rfl⟩ := List.mem_map.mp hw
    exact div_nonneg (htnn v hv) (le_of_lt hden)
  · rw [hsum]
    have h1 : (1/10000000000 : ℚ) / ((thresholdRow row).sum + 1/10000000000) ≤
        (1/10000000000) / listMax row := by
      apply div_le_div_of_nonneg_left (by norm_num) hmax
      have : (0 : ℚ) < 1/10000000000 := by norm_num
      linarith
    have h2 : (thresholdRow row).sum / ((thresholdRow row).sum + 1/10000000000) +
        (1/10000000000) / ((thresholdRow row).sum + 1/10000000000) = 1 := by
      rw [div_add_div_same, div_self (ne_of_gt hden)]
    linarith
  · rw [hsum]
    refine (div_lt_one hden).mpr ?_
    have : (0 : ℚ) < 1/10000000000 := by norm_num
    linarith

/-- C2 witness: the row-stochastic bounds evaluated on a concrete row. -/
theorem C2_witness :
    0 < listMax rowC2 ∧
    1 - (1/10000000000) / listMax rowC2 ≤ (renormalizeRow (thresholdRow rowC2)).sum ∧
    (renormalizeRow (thresholdRow rowC2)).sum < 1 := by
  have hnn : ∀ w ∈ rowC2, 0 ≤ w := by
    intro w hw
    simp only [rowC2, List.mem_cons, List.not_mem_nil, or_false] at hw
    rcases hw with rfl | rfl | rfl <;> norm_num
  have hmax : 0 < listMax rowC2 := by norm_num [listMax, rowC2]
  have h := C2_theorem matC2 rowC2 (by simp [matC2]) hnn hmax
  exact ⟨hmax, h.2.2.2.1, h.2.2.2.2⟩

/-!  Claim C4.  -/

/-- C4 counterexample: with a single candidate whose attention weight 0
fails the 1e-3 cut (every candidate filtered out) and empty-preserving
clustering oracles, predict_joints does not fail with
InsufficientJointsError: it returns normally with an empty joint set. -/
theorem C4_counterexample :
    filterCandidates (zipAdd (jnetC4 datC4.pos).displacement datC4.pos)
      (jnetC4 datC4.pos).attn (fun _ => true) = ([], []) ∧
    predict_joints jnetC4 (fun y _ _ _ => y) (fun y _ _ => y) (fun y => (y, []))
      (fun _ => 0) (fun _ _ => []) datC4 (fun _ => true) 0 none ≠
      .error RigError.InsufficientJointsError ∧
    predict_joints jnetC4 (fun y _ _ _ => y) (fun y _ _ => y) (fun y => (y, []))
      (fun _ => 0) (fun _ _ => []) datC4 (fun _ => true) 0 none =
      .ok { datC4 with joints := [], pairs := [], pair_attr := [] } := by
  have hempty : filterCandidates (zipAdd (jnetC4 datC4.pos).displacement datC4.pos)
      (jnetC4 datC4.pos).attn (fun _ => true) = ([], []) := by
    norm_num [filterCandidates, inside_check, zipAdd, jnetC4, datC4]
  have hmain : predict_joints jnetC4 (fun y _ _ _ => y) (fun y _ _ => y) (fun y => (y, []))
      (fun _ => 0) (fun _ _ => []) datC4 (fun _ => true) 0 none =
      .ok { datC4 with joints := [], pairs := [], pair_attr := [] } := by
    simp [predict_joints, hempty, densityOf, combinations2]
  refine ⟨hempty, ?_, hmain⟩
  rw [hmain]
  intro h
  exact Except.noConfusion h

/-- C4 (amended): predict_joints contains no emptiness check and no raise
site: whenever the inside/attention filtering removes every candidate and
the external clustering, suppression and flip utilities map empty inputs
to empty outputs, it returns normally with an empty joint, pair and
attribute set, rather than failing with InsufficientJointsError (an error
that does not exist in the code). -/
theorem C4_theorem
    (jointNetO : List Vec3 → JointPredOut)
    (meanshiftO : List Vec3 → ℚ → List ℚ → Nat → List Vec3)
    (nmsO : List Vec3 → List ℚ → ℚ → List Vec3)
    (flipO : List Vec3 → List Vec3 × List Nat)
    (normO : Vec3 → ℚ) (sampleO : Vec3 → Vec3 → List Vec3)
    (dat : JointData) (vox : Vec3 → Bool) (threshold : ℚ) (bandwidth : Option ℚ)
    (hempty : filterCandidates (zipAdd (jointNetO dat.pos).displacement dat.pos)
        (jointNetO dat.pos).attn vox = ([], []))
    (hms : meanshiftO [] (chosenBandwidth bandwidth (jointNetO dat.pos).bandwidth) [] 40 = [])
    (hnms : nmsO [] [] (chosenBandwidth bandwidth (jointNetO dat.pos).bandwidth) = [])
    (hflip : flipO [] = ([], [])) :
    predict_joints jointNetO meanshiftO nmsO flipO normO sampleO dat vox threshold bandwidth
      = .ok { dat with joints := [], pairs := [], pair_attr := [] } := by
  simp [predict_joints, hempty, hms, hnms, hflip, densityOf, combinations2]

/-- C4 witness: the amended theorem applied to the all-filtered concrete
instance with identity clustering oracles. -/
theorem C4_witness :
    filterCandidates (zipAdd (jnetC4 datC4.pos).displacement datC4.pos)
      (jnetC4 datC4.pos).attn (fun _ => true) = ([], []) ∧
    predict_joints jnetC4 (fun y _ _ _ => y) (fun y _ _ => y) (fun y => (y, []))
      (fun _ => 0) (fun _ _ => []) datC4 (fun _ => true) 0 none =
      .ok { datC4 with joints := [], pairs := [], pair_attr := [] } := by
  have hempty : filterCandidates (zipAdd (jnetC4 datC4.pos).displacement datC4.pos)
      (jnetC4 datC4.pos).attn (fun _ => true) = ([], []) := by
    norm_num [filterCandidates, inside_check, zipAdd, jnetC4, datC4]
  exact ⟨hempty,
    C4_theorem jnetC4 (fun y _ _ _ => y) (fun y _ _ => y) (fun y => (y, []))
      (fun _ => 0) (fun _ _ => []) datC4 (fun _ => true) 0 none hempty rfl rfl rfl⟩

/-!  Claim C5.  -/

/-- C5 counterexample: with an MST oracle returning the parent array
[0, 1] (no -1 entry anywhere), predict_skeleton does not fail with
InvariantViolation: it returns normally with the root left unset. -/
theorem C5_counterexample :
    findRootLoop [(0 : Int), 1] = none ∧
    predict_skeleton (T := String × Vec3) (fun _ => 0) (fun _ => [])
      (fun q => -q) (fun c _ _ => c) primMSTC5 (fun rt _ _ _ => rt)
      jointsC5 [(0, 1)] (fun _ => true) = .ok { root := none } ∧
    predict_skeleton (T := String × Vec3) (fun _ => 0) (fun _ => [])
      (fun q => -q) (fun c _ _ => c) primMSTC5 (fun rt _ _ _ => rt)
      jointsC5 [(0, 1)] (fun _ => true) ≠ .error RigError.InvariantViolation := by
  refine ⟨by decide, ?_, ?_⟩
  · simp [predict_skeleton, findRootLoop, primMSTC5, List.find?]
  · simp [predict_skeleton, findRootLoop, primMSTC5, List.find?]

/-- C5 (amended): when the parent array produced by the symmetry MST
oracle is nonempty and has no -1 entry, predict_skeleton does not raise
InvariantViolation: the root stays unset (None), the external recursive
construction is invoked with None and the last loop index, and the
function returns normally. -/
theorem C5_theorem {T : Type}
    (getInitIdO : List Vec3 → Nat) (bonePredO : List (Nat × Nat) → List ℚ)
    (negLogO : ℚ → ℚ)
    (costAdjustO : (Nat → Nat → ℚ) → List Vec3 → (Vec3 → Bool) → Nat → Nat → ℚ)
    (primMSTO : (Nat → Nat → ℚ) → Nat → List Vec3 → List Int × List Nat)
    (loadSkelO : Option (String × Vec3) → Nat → List Vec3 → List Int → Option T)
    (joints : List Vec3) (pairs : List (Nat × Nat)) (vox : Vec3 → Bool)
    (hne : (primMSTO (skeleton_cost_matrix negLogO costAdjustO pairs (bonePredO pairs) joints vox)
        (getInitIdO joints) joints).1 ≠ [])
    (hnoroot : findRootLoop
        ((primMSTO (skeleton_cost_matrix negLogO costAdjustO pairs (bonePredO pairs) joints vox)
          (getInitIdO joints) joints).1) = none) :
    predict_skeleton getInitIdO bonePredO negLogO costAdjustO primMSTO loadSkelO joints pairs vox
      = .ok { root := (loadSkelO none
          (((primMSTO (skeleton_cost_matrix negLogO costAdjustO pairs (bonePredO pairs) joints vox)
            (getInitIdO joints) joints).1).length - 1) joints
          ((primMSTO (skeleton_cost_matrix negLogO costAdjustO pairs (bonePredO pairs) joints vox)
            (getInitIdO joints) joints).1)) } := by
  have hlen : ¬ (((primMSTO (skeleton_cost_matrix negLogO costAdjustO pairs (bonePredO pairs) joints vox)
      (getInitIdO joints) joints).1).length = 0) := by
    intro h
    exact hne (List.length_eq_zero.mp h)
  simp [predict_skeleton, hnoroot, hlen]

/-- C5 witness: the amended theorem at the concrete rootless instance. -/
theorem C5_witness :
    (([(0 : Int), 1] : List Int) ≠ []) ∧
    findRootLoop [(0 : Int), 1] = none ∧
    predict_skeleton (T := String × Vec3) (fun _ => 0) (fun _ => [])
      (fun q => -q) (fun c _ _ => c) primMSTC5 (fun rt _ _ _ => rt)
      jointsC5 [(0, 1)] (fun _ => true) = .ok { root := none } := by
  have h := C5_theorem (T := String × Vec3) (fun _ => 0) (fun _ => [])
      (fun q => -q) (fun c _ _ => c) primMSTC5 (fun rt _ _ _ => rt)
      jointsC5 [(0, 1)] (fun _ => true) (by decide) (by decide)
  exact ⟨by decide, by decide, by simpa using h⟩

/-!  Claim C7.  -/

/-- C7 counterexample: on a concrete two-joint instance where every
sampled point of the single bone lies inside the mesh (true outside
fraction 0), the second attribute stored by predict_joints equals
2 / (2 + 1e-10) -- the INSIDE fraction with the epsilon guard -- which is
not the outside-mesh fraction 0. -/
theorem C7_counterexample :
    predict_joints jnetC7 (fun y _ _ _ => y) (fun y _ _ => y) (fun y => (y, []))
      (fun _ => 2) sampleC7 datC7 (fun _ => true) (1/4) (some 1) = .ok dExC7 ∧
    ((sampleC7 ((1 : ℚ), (2 : ℚ), (3 : ℚ)) ((-1 : ℚ), (2 : ℚ), (3 : ℚ))).filter
        (fun p => !(fun _ => true) p)).length = 0 ∧
    (dExC7.pair_attr.getD 0 ((0 : ℚ), (0 : ℚ), (0 : ℚ))).2.1 =
      20000000000/20000000001 ∧
    (20000000000/20000000001 : ℚ) ≠ 0 := by
  refine ⟨?_, by simp [sampleC7], by norm_num [dExC7], by norm_num⟩
  have hr1 : List.range 1 = [0] := rfl
  have hr2 : List.range 2 = [0, 1] := rfl
  have hfc : filterCandidates (zipAdd [(0 : Vec3)] [((1 : ℚ), (2 : ℚ), (3 : ℚ))])
      [(1 : ℚ)] (fun _ => true) = ([((1 : ℚ), (2 : ℚ), (3 : ℚ))], [1]) := by
    norm_num [filterCandidates, inside_check, zipAdd, hr1]
  norm_num [predict_joints, jnetC7, datC7, hfc, reflectX, chosenBandwidth,
    densityOf, sqDist, combinations2, pairAttrOf, inside_check, sampleC7, dExC7,
    max_def, hr1, hr2]

/-- C7 (amended): for every unordered pair of predicted joints, the
attribute triple predict_joints attaches is: first the oracle norm of the
joint difference (the euclidean length), second the number of bone
samples INSIDE the mesh by the voxel oracle divided by (sample count plus
1e-10) -- the inside fraction, despite the source variable name
outside_proportion -- and third the constant 1. -/
theorem C7_theorem
    (jointNetO : List Vec3 → JointPredOut)
    (meanshiftO : List Vec3 → ℚ → List ℚ → Nat → List Vec3)
    (nmsO : List Vec3 → List ℚ → ℚ → List Vec3)
    (flipO : List Vec3 → List Vec3 × List Nat)
    (normO : Vec3 → ℚ) (sampleO : Vec3 → Vec3 → List Vec3)
    (dat : JointData) (vox : Vec3 → Bool) (threshold : ℚ) (bandwidth : Option ℚ)
    (d : JointData) (k : Nat)
    (hok : predict_joints jointNetO meanshiftO nmsO flipO normO sampleO dat vox threshold bandwidth
        = .ok d)
    (hk : k < d.pairs.length) :
    d.pair_attr.getD k ((0 : ℚ), (0 : ℚ), (0 : ℚ)) =
      (normO ((d.joints.getD (d.pairs.getD k (0, 0)).1 ((0 : ℚ), (0 : ℚ), (0 : ℚ))).1 -
                (d.joints.getD (d.pairs.getD k (0, 0)).2 ((0 : ℚ), (0 : ℚ), (0 : ℚ))).1,
              (d.joints.getD (d.pairs.getD k (0, 0)).1 ((0 : ℚ), (0 : ℚ), (0 : ℚ))).2.1 -
                (d.joints.getD (d.pairs.getD k (0, 0)).2 ((0 : ℚ), (0 : ℚ), (0 : ℚ))).2.1,
              (d.joints.getD (d.pairs.getD k (0, 0)).1 ((0 : ℚ), (0 : ℚ), (0 : ℚ))).2.2 -
                (d.joints.getD (d.pairs.getD k (0, 0)).2 ((0 : ℚ), (0 : ℚ), (0 : ℚ))).2.2),
       ((inside_check (sampleO (d.joints.getD (d.pairs.getD k (0, 0)).1 ((0 : ℚ), (0 : ℚ), (0 : ℚ)))
            (d.joints.getD (d.pairs.getD k (0, 0)).2 ((0 : ℚ), (0 : ℚ), (0 : ℚ)))) vox).1.length : ℚ) /
         (((sampleO (d.joints.getD (d.pairs.getD k (0, 0)).1 ((0 : ℚ), (0 : ℚ), (0 : ℚ)))
            (d.joints.getD (d.pairs.getD k (0, 0)).2 ((0 : ℚ), (0 : ℚ), (0 : ℚ)))).length : ℚ)
           + 1/10000000000),
       1) := by
  unfold predict_joints at hok
  injection hok with hout
  subst hout
  simp only at hk ⊢
  rw [getD_map_lt _ _ _ _ (0, 0) (by simpa using hk)]
  rfl

/-- C7 witness: the amended attribute formula of the theorem evaluated on
the concrete two-joint instance. -/
theorem C7_witness :
    0 < dExC7.pairs.length ∧
    dExC7.pair_attr.getD 0 ((0 : ℚ), (0 : ℚ), (0 : ℚ)) =
      ((2 : ℚ), (20000000000/20000000001 : ℚ), (1 : ℚ)) := by
  have hr1 : List.range 1 = [0] := rfl
  have hr2 : List.range 2 = [0, 1] := rfl
  have hfc : filterCandidates (zipAdd [(0 : Vec3)] [((1 : ℚ), (2 : ℚ), (3 : ℚ))])
      [(1 : ℚ)] (fun _ => true) = ([((1 : ℚ), (2 : ℚ), (3 : ℚ))], [1]) := by
    norm_num [filterCandidates, inside_check, zipAdd, hr1]
  have hok : predict_joints jnetC7 (fun y _ _ _ => y) (fun y _ _ => y) (fun y => (y, []))
      (fun _ => 2) sampleC7 datC7 (fun _ => true) (1/4) (some 1) = .ok dExC7 := by
    norm_num [predict_joints, jnetC7, datC7, hfc, reflectX, chosenBandwidth,
      densityOf, sqDist, combinations2, pairAttrOf, inside_check, sampleC7, dExC7,
      max_def, hr1, hr2]
  have h := C7_theorem jnetC7 (fun y _ _ _ => y) (fun y _ _ => y) (fun y => (y, []))
      (fun _ => 2) sampleC7 datC7 (fun _ => true) (1/4) (some 1) dExC7 0 hok
      (by norm_num [dExC7])
  refine ⟨by norm_num [dExC7], ?_⟩
  rw [h]
  norm_num [dExC7, sampleC7, inside_check]

/-!  Claim C1: lemmas about the imputation loop.  -/

/-- indexOf of a member is in range (for any lawful BEq instance). -/
theorem indexOf_lt_length_mem {α : Type} [BEq α] [LawfulBEq α] (a : α) :
    ∀ l : List α, a ∈ l → l.indexOf a < l.length := by
  intro l
  induction l with
  | nil => intro h; exact absurd h (List.not_mem_nil a)
  | cons x xs ih =>
    intro h
    show List.findIdx (· == a) (x :: xs) < (x :: xs).length
    rw [List.findIdx_cons]
    cases hx : x == a
    · have hmem : a ∈ xs := by
        rcases List.mem_cons.mp h with rfl | hm
        · rw [beq_self_eq_true] at hx
          exact Bool.noConfusion hx
        · exact hm
      have hlt := ih hmem
      unfold List.indexOf at hlt
      simp only [cond_false, List.length_cons]
      omega
    · simp

/-- The visible point selected by np.argmin is a member of the visible
list whenever the geodesic minimum is finite. -/
theorem imputeNN_mem (sg : Nat → Nat → Option ℚ) (vp : List Nat) (r : Nat)
    (d1 : ℚ) (h : listOMin (vp.map (fun v => sg r v)) = some d1) :
    vp.getD ((vp.map (fun v => sg r v)).indexOf (some d1)) 0 ∈ vp := by
  have hne : vp.map (fun v => sg r v) ≠ [] := by
    intro hnil
    rw [hnil] at h
    simp [listOMin] at h
  have hmem : some d1 ∈ vp.map (fun v => sg r v) := h ▸ listOMin_mem _ hne
  have hidx : (vp.map (fun v => sg r v)).indexOf (some d1) <
      (vp.map (fun v => sg r v)).length :=
    indexOf_lt_length_mem (some d1) _ hmem
  exact getD_mem _ _ _ (by simpa using hidx)

/-- The imputed value only reads the accumulator at visible rows of the
current column. -/
theorem imputeVal_congr (sg : Nat → Nat → Option ℚ) (dist : Nat → Nat → ℚ)
    (vp : List Nat) (c : Nat) (m1 m2 : Nat → Nat → ℚ)
    (h : ∀ v ∈ vp, m1 v c = m2 v c) (r : Nat) :
    imputeVal sg dist vp c m1 r = imputeVal sg dist vp c m2 r := by
  simp only [imputeVal]
  rcases hmin : listOMin (vp.map (fun v => sg r v)) with _ | d1
  · rfl
  · simp only [h _ (imputeNN_mem sg vp r d1 hmin)]

/-- Characterization of the inner fold of the imputation loop: rows in
the occluded list get their imputed value (computed from the original
accumulator, which the fold never changes at visible rows), every other
entry is untouched. -/
theorem foldImpute_eq (sg : Nat → Nat → Option ℚ) (dist : Nat → Nat → ℚ)
    (vp : List Nat) (c : Nat) :
    ∀ (l : List Nat) (m : Nat → Nat → ℚ), (∀ x ∈ l, x ∉ vp) →
    ∀ p b,
      (l.foldl (fun m r => fun p b =>
          if p = r ∧ b = c then imputeVal sg dist vp c m r else m p b) m) p b
        = if p ∈ l ∧ b = c then imputeVal sg dist vp c m p else m p b := by
  intro l
  induction l with
  | nil => intro m _ p b; simp
  | cons r rest ih =>
    intro m hdisj p b
    have hrnot : r ∉ vp := hdisj r (List.mem_cons_self r rest)
    have hrest : ∀ x ∈ rest, x ∉ vp := fun x hx =>
      hdisj x (List.mem_cons_of_mem r hx)
    rw [List.foldl_cons,
        ih (fun p b => if p = r ∧ b = c then imputeVal sg dist vp c m r else m p b) hrest p b]
    have hstep : ∀ v ∈ vp,
        (if v = r ∧ c = c then imputeVal sg dist vp c m r else m v c) = m v c := by
      intro v hv
      have : ¬ (v = r ∧ c = c) := by
        intro hc
        exact hrnot (hc.1 ▸ hv)
      rw [if_neg this]
    by_cases hp : p ∈ rest ∧ b = c
    · rw [if_pos hp, if_pos ⟨List.mem_cons_of_mem r hp.1, hp.2⟩]
      exact imputeVal_congr sg dist vp c _ m hstep p
    · rw [if_neg hp]
      by_cases hpr : p = r ∧ b = c
      · rw [if_pos hpr, if_pos ⟨hpr.1 ▸ List.mem_cons_self r rest, hpr.2⟩, hpr.1]
      · rw [if_neg hpr]
        have : ¬ (p ∈ r :: rest ∧ b = c) := by
          intro hc
          rcases List.mem_cons.mp hc.1 with h1 | h1
          · exact hpr ⟨h1, hc.2⟩
          · exact hp ⟨h1, hc.2⟩
        rw [if_neg this]

/-- Occluded and visible index lists are disjoint. -/
theorem unvisible_not_visible (P : Nat) (vis : Nat → Nat → Bool) (c : Nat) :
    ∀ x ∈ unvisiblePts P vis c, x ∉ visiblePts P vis c := by
  intro x hx hv
  have h1 := (List.mem_filter.mp hx).2
  have h2 := (List.mem_filter.mp hv).2
  rw [h2] at h1
  exact Bool.noConfusion h1

/-- Pointwise characterization of one column step of the imputation
loop. -/
theorem imputeBone_eval (P : Nat) (sg : Nat → Nat → Option ℚ)
    (dist : Nat → Nat → ℚ) (vis : Nat → Nat → Bool) (c : Nat)
    (vm : Nat → Nat → ℚ) (p b : Nat) :
    imputeBone P sg dist vis c vm p b =
      if (visiblePts P vis c).isEmpty then
        (if b = c then dist p b else vm p b)
      else
        (if p ∈ unvisiblePts P vis c ∧ b = c then
          imputeVal sg dist (visiblePts P vis c) c vm p
        else vm p b) := by
  unfold imputeBone
  by_cases hvp : (visiblePts P vis c).isEmpty
  · rw [if_pos hvp, if_pos hvp]
  · rw [if_neg hvp, if_neg hvp,
        foldImpute_eq sg dist (visiblePts P vis c) c (unvisiblePts P vis c) vm
          (unvisible_not_visible P vis c) p b]

/-- A column step leaves every other column unchanged. -/
theorem imputeBone_other (P : Nat) (sg : Nat → Nat → Option ℚ)
    (dist : Nat → Nat → ℚ) (vis : Nat → Nat → Bool) (c : Nat)
    (vm : Nat → Nat → ℚ) (p b : Nat) (hb : b ≠ c) :
    imputeBone P sg dist vis c vm p b = vm p b := by
  rw [imputeBone_eval]
  by_cases hvp : (visiblePts P vis c).isEmpty
  · rw [if_pos hvp, if_neg hb]
  · rw [if_neg hvp, if_neg (by intro hc; exact hb hc.2)]

/-- A column step only reads its own column of the accumulator. -/
theorem imputeBone_congr_col (P : Nat) (sg : Nat → Nat → Option ℚ)
    (dist : Nat → Nat → ℚ) (vis : Nat → Nat → Bool) (c : Nat)
    (m1 m2 : Nat → Nat → ℚ) (h : ∀ q, m1 q c = m2 q c) (p : Nat) :
    imputeBone P sg dist vis c m1 p c = imputeBone P sg dist vis c m2 p c := by
  rw [imputeBone_eval, imputeBone_eval]
  by_cases hvp : (visiblePts P vis c).isEmpty
  · simp [hvp, h p]
  · rw [if_neg hvp, if_neg hvp]
    by_cases hp : p ∈ unvisiblePts P vis c ∧ c = c
    · rw [if_pos hp, if_pos hp]
      exact imputeVal_congr sg dist (visiblePts P vis c) c m1 m2 (fun v _ => h v) p
    · rw [if_neg hp, if_neg hp]
      exact h p

/-- Columns whose bone index is not in the remaining list are untouched
by the outer fold. -/
theorem fold_impute_notmem (P : Nat) (sg : Nat → Nat → Option ℚ)
    (dist : Nat → Nat → ℚ) (vis : Nat → Nat → Bool) :
    ∀ (l : List Nat) (vm : Nat → Nat → ℚ) (p c : Nat), c ∉ l →
      (l.foldl (fun vm b => imputeBone P sg dist vis b vm) vm) p c = vm p c := by
  intro l
  induction l with
  | nil => intro vm p c _; rfl
  | cons b rest ih =>
    intro vm p c hc
    rw [List.foldl_cons,
        ih (imputeBone P sg dist vis b vm) p c (fun h => hc (List.mem_cons_of_mem b h)),
        imputeBone_other P sg dist vis b vm p c
          (fun h => hc (h ▸ List.mem_cons_self b rest))]

/-- The outer fold evaluated at a column below the bone count equals the
single column step applied to the initial accumulator. -/
theorem fold_imputeCols (P : Nat) (sg : Nat → Nat → Option ℚ)
    (dist : Nat → Nat → ℚ) (vis : Nat → Nat → Bool) :
    ∀ (B : Nat) (vm : Nat → Nat → ℚ) (p c : Nat), c < B →
      ((List.range B).foldl (fun vm b => imputeBone P sg dist vis b vm) vm) p c
        = imputeBone P sg dist vis c vm p c := by
  intro B
  induction B with
  | zero => intro vm p c hc; exact absurd hc (Nat.not_lt_zero c)
  | succ B ih =>
    intro vm p c hc
    rw [List.range_succ, List.foldl_append, List.foldl_cons, List.foldl_nil]
    rcases Nat.lt_succ_iff_lt_or_eq.mp hc with h | h
    · rw [imputeBone_other P sg dist vis B _ p c (by omega)]
      exact ih vm p c h
    · subst h
      exact imputeBone_congr_col P sg dist vis c _ vm
        (fun q => fold_impute_notmem P sg dist vis (List.range c) vm q c
          (by simp)) p

/-- C1 (amended): the imputation rule of calc_geodesic_matrix and
calc_geodesic_matrix_2, embedded as computeVisibleMatrix (lines 284-306
and 350-372, textually shared).  For a vertex r with no surviving
visibility to bone c whose visible set is nonempty: when every surface
geodesic distance from r to a visible point is infinite, the imputed
value is 8.0 plus the raw point-to-bone distance (as the claim states);
when the geodesic minimum d1 is finite, the value is d1 plus the bone
distance of the FIRST visible point attaining that geodesic minimum
(np.argmin) -- the path through the geodesically nearest visible point,
not the minimum over all visible points of (geodesic distance plus that
point's own bone distance) that the claim prescribes. -/
theorem C1_theorem (pct : List ℚ → ℚ) (P B : Nat) (sg : Nat → Nat → Option ℚ)
    (dist : Nat → Nat → ℚ) (vis0 : Nat → Nat → Bool) (r c : Nat)
    (hr : r < P) (hc : c < B)
    (hunv : pruneVisibility pct P B dist vis0 r c = false)
    (hvp : visiblePts P (pruneVisibility pct P B dist vis0) c ≠ []) :
    (listOMin ((visiblePts P (pruneVisibility pct P B dist vis0) c).map
        (fun v => sg r v)) = none →
      computeVisibleMatrix pct P B sg dist vis0 r c = 8 + dist r c) ∧
    (∀ d1 : ℚ, listOMin ((visiblePts P (pruneVisibility pct P B dist vis0) c).map
        (fun v => sg r v)) = some d1 →
      computeVisibleMatrix pct P B sg dist vis0 r c =
        d1 + dist ((visiblePts P (pruneVisibility pct P B dist vis0) c).getD
          (((visiblePts P (pruneVisibility pct P B dist vis0) c).map
            (fun v => sg r v)).indexOf (some d1)) 0) c) := by
  have hvpE : ¬ (visiblePts P (pruneVisibility pct P B dist vis0) c).isEmpty := by
    intro h
    exact hvp (List.isEmpty_iff.mp h)
  have hrup : r ∈ unvisiblePts P (pruneVisibility pct P B dist vis0) c :=
    List.mem_filter.mpr ⟨List.mem_range.mpr hr, by rw [hunv]; rfl⟩
  have hmain : computeVisibleMatrix pct P B sg dist vis0 r c =
      imputeVal sg dist (visiblePts P (pruneVisibility pct P B dist vis0) c) c
        (initVisibleMatrix dist (pruneVisibility pct P B dist vis0)) r := by
    unfold computeVisibleMatrix
    rw [fold_imputeCols P sg dist (pruneVisibility pct P B dist vis0) B
          (initVisibleMatrix dist (pruneVisibility pct P B dist vis0)) r c hc,
        imputeBone_eval, if_neg hvpE, if_pos ⟨hrup, rfl⟩]
  constructor
  · intro hnone
    rw [hmain]
    simp only [imputeVal, hnone]
  · intro d1 hsome
    rw [hmain]
    simp only [imputeVal, hsome]
    have hnn := imputeNN_mem sg (visiblePts P (pruneVisibility pct P B dist vis0) c) r d1 hsome
    have hvist : pruneVisibility pct P B dist vis0
        ((visiblePts P (pruneVisibility pct P B dist vis0) c).getD
          (((visiblePts P (pruneVisibility pct P B dist vis0) c).map
            (fun v => sg r v)).indexOf (some d1)) 0) c = true :=
      (List.mem_filter.mp hnn).2
    rw [List.getD_eq_getElem?_getD] at hvist
    simp [initVisibleMatrix, hvist]

/-- Point values of the instance distance matrix. -/
theorem distC1_vals : distC1 0 0 = 1 ∧ distC1 1 0 = 2/5 ∧ distC1 2 0 = 3/10 :=
  ⟨rfl, rfl, rfl⟩

/-- Point values of the instance surface geodesic matrix at the occluded
point. -/
theorem sgC1_vals : sgC1 0 1 = some (1/10) ∧ sgC1 0 2 = some (3/20) :=
  ⟨rfl, rfl⟩

/-- The visible list of the instance before pruning. -/
theorem vpC1_raw : visiblePts 3 visC1 0 = [1, 2] := by decide

/-- The 15th percentile (numpy linear interpolation) of the two visible
distances of the instance. -/
theorem pctC1 : percentile15 [2/5, 3/10] = 63/200 := by
  norm_num [percentile15, sortQ, insertSorted]

/-- The pruning step leaves the visibility of the instance unchanged:
point 0 stays occluded, points 1 and 2 stay visible (their distances do
not exceed 1.3 times the percentile). -/
theorem prunedC1 :
    pruneVisibility percentile15 3 1 distC1 visC1 0 0 = false ∧
    pruneVisibility percentile15 3 1 distC1 visC1 1 0 = true ∧
    pruneVisibility percentile15 3 1 distC1 visC1 2 0 = true := by
  have hr1 : List.range 1 = [0] := rfl
  have hb0 : visC1 0 0 = false := by decide
  have hb1 : visC1 1 0 = true := by decide
  have hb2 : visC1 2 0 = true := by decide
  refine ⟨?_, ?_, ?_⟩ <;>
    norm_num [pruneVisibility, pruneBone, hr1, vpC1_raw, pctC1]
  all_goals rw [if_neg (List.cons_ne_nil 1 [2])]
  all_goals norm_num [distC1_vals.1, distC1_vals.2.1, distC1_vals.2.2, pctC1,
    hb0, hb1, hb2]

/-- The visible list of the instance after pruning. -/
theorem vpC1 : visiblePts 3 (pruneVisibility percentile15 3 1 distC1 visC1) 0 = [1, 2] := by
  have hr3 : List.range 3 = [0, 1, 2] := rfl
  obtain ⟨h0, h1, h2⟩ := prunedC1
  simp [visiblePts, hr3, h0, h1, h2]

/-- np.argmin selects index 0 (the geodesically nearest visible point) in
the instance. -/
theorem idxC1 :
    ([some ((1 : ℚ)/10), some ((3 : ℚ)/20)] : List (Option ℚ)).indexOf (some ((1 : ℚ)/10)) = 0 := by
  show List.findIdx (· == some ((1 : ℚ)/10)) _ = 0
  rw [List.findIdx_cons]
  simp

/-- The geodesic minimum of the instance at the occluded point. -/
theorem minC1 : listOMin [some ((1 : ℚ)/10), some ((3 : ℚ)/20)] = some (1/10) := by
  norm_num [listOMin, oMin, min_def]

/-- C1 counterexample: in the three-point, one-bone instance the imputed
value computed by calc_geodesic_matrix is 1/2 = 1/10 + 2/5, the path
through the geodesically nearest visible point (geodesic 1/10, bone
distance 2/5), whereas the minimum over all visible points of (surface
geodesic distance + that point's bone distance), as the claim
prescribes, is 9/20 = 3/20 + 3/10: the code does not compute the claimed
minimum combined path. -/
theorem C1_counterexample :
    calc_geodesic_matrix pts2lineC1 visOC1 percentile15 bonesC1 meshC1 sgC1 () 0 0 = 1/2 ∧
    specCombinedMin [1, 2] sgC1 distC1 0 0 = some (9/20) ∧
    ((1/2 : ℚ) ≠ 9/20) := by
  have hcv : calc_geodesic_matrix pts2lineC1 visOC1 percentile15 bonesC1 meshC1 sgC1 ()
      = computeVisibleMatrix percentile15 3 1 sgC1 distC1 visC1 := rfl
  refine ⟨?_, ?_, by norm_num⟩
  · rw [hcv]
    obtain ⟨h0, h1, h2⟩ := prunedC1
    have hvpE : ¬ (visiblePts 3 (pruneVisibility percentile15 3 1 distC1 visC1) 0).isEmpty := by
      rw [vpC1]
      simp
    have hrup : (0 : Nat) ∈ unvisiblePts 3 (pruneVisibility percentile15 3 1 distC1 visC1) 0 :=
      List.mem_filter.mpr ⟨by norm_num, by rw [h0]; rfl⟩
    unfold computeVisibleMatrix
    rw [fold_imputeCols 3 sgC1 distC1 (pruneVisibility percentile15 3 1 distC1 visC1) 1
          (initVisibleMatrix distC1 (pruneVisibility percentile15 3 1 distC1 visC1)) 0 0
          (by norm_num),
        imputeBone_eval, if_neg hvpE, if_pos ⟨hrup, rfl⟩, vpC1]
    have hm : listOMin ([1, 2].map (fun v => sgC1 0 v)) = some ((1 : ℚ)/10) := by
      simp only [List.map_cons, List.map_nil, sgC1_vals.1, sgC1_vals.2]
      exact minC1
    simp only [imputeVal, hm]
    simp only [List.map_cons, List.map_nil, sgC1_vals.1, sgC1_vals.2, idxC1]
    norm_num [initVisibleMatrix, h1, distC1_vals.2.1]
  · simp only [specCombinedMin, List.map_cons, List.map_nil, sgC1_vals.1, sgC1_vals.2,
      Option.map_some]
    norm_num [distC1_vals.2.1, distC1_vals.2.2, listOMin, oMin, min_def]

/-- C1 witness: the amended imputation rule of the theorem applied to the
concrete instance yields 1/2 (the nearest-neighbor path). -/
theorem C1_witness :
    computeVisibleMatrix percentile15 3 1 sgC1 distC1 visC1 0 0 = 1/2 := by
  obtain ⟨h0, h1, h2⟩ := prunedC1
  have hvp : visiblePts 3 (pruneVisibility percentile15 3 1 distC1 visC1) 0 ≠ [] := by
    rw [vpC1]
    simp
  have hmin : listOMin ((visiblePts 3 (pruneVisibility percentile15 3 1 distC1 visC1) 0).map
      (fun v => sgC1 0 v)) = some ((1 : ℚ)/10) := by
    rw [vpC1]
    simp only [List.map_cons, List.map_nil, sgC1_vals.1, sgC1_vals.2]
    exact minC1
  have h := (C1_theorem percentile15 3 1 sgC1 distC1 visC1 0 0 (by norm_num) (by norm_num)
      h0 hvp).2 (1/10) hmin
  rw [h, vpC1]
  simp only [List.map_cons, List.map_nil, sgC1_vals.1, sgC1_vals.2, idxC1]
  norm_num [distC1_vals.2.1]
